import Mathlib

/-!
Verification development for the Oskar pose-visualization pipeline.

The repository renders pose-estimator keypoints as stylized stick figures.
This file gives a shallow embedding of its core algorithms, translated from
the JavaScript sources:

* `applySpringForce` — src/SpringSplineVisualizer.js, the damped spring
  integrator (and the structurally identical control-point update in
  src/SpringyBlueSchlemerVisualizer.js `drawSpringyLine`);
* `smoothPoses` — src/sketch.js (identical copy in
  src/SpringSplineVisualizer.js), exponential pose smoothing;
* `isPointInPolygon` / `filterPosesByMask` — src/sketch.js, the region
  ("detection mask") filter;
* the trail aging/eviction pass of `drawSchlemerTrail` —
  src/SchlemerVisualizer.js;
* the stick-segment geometry of `drawSchlemerSticks` —
  src/SchlemerVisualizer.js (modelled over ℝ because the source divides by
  `Math.sqrt` of the squared direction length);
* `gotPoses` — src/sketch.js, the pose-callback state update;
* the no-trail overrides of src/ClearRedSchlemerVisualizer.js.

JavaScript numbers are modelled as exact rationals (reals for the
square-root geometry); poses carry a list of keypoints (17 in the live
system, per the MoveNet keypoint order).
-/

/-- A pose keypoint: `{x, y, confidence, name}` as produced by the pose
estimator (src/sketch.js data model). -/
structure Keypoint where
  x : ℚ
  y : ℚ
  confidence : ℚ
  name : String
deriving DecidableEq, Repr

/-- A pose: an ordered list of keypoints (17 in the live system). -/
structure Pose where
  keypoints : List Keypoint
deriving DecidableEq, Repr

/-- A vertex of the detection-mask polygon (`maskPoints` entries in
src/sketch.js): `{x, y}`. -/
structure MaskPoint where
  x : ℚ
  y : ℚ
deriving DecidableEq, Repr

/-- A spring mass point `{x, y, vx, vy}` (src/SpringSplineVisualizer.js
spring state, also the control points of
src/SpringyBlueSchlemerVisualizer.js). -/
structure SpringPoint where
  x : ℚ
  y : ℚ
  vx : ℚ
  vy : ℚ
deriving DecidableEq, Repr

/-- A 2-D target position (the `target` argument of `applySpringForce`, or
the ideal control-point position in `drawSpringyLine`). -/
structure Target2 where
  x : ℚ
  y : ℚ
deriving DecidableEq, Repr

/-- src/SpringSplineVisualizer.js `applySpringForce(springPoint, target,
hardness)`: force = (target - position) * hardness is added to the
velocity, the velocity is scaled by the damping factor, then the position
integrates the damped velocity.  The instance fields `this.springDamping`
(and the defaulted `hardness`) are passed explicitly. -/
def applySpringForce (springPoint : SpringPoint) (target : Target2)
    (hardness damping : ℚ) : SpringPoint :=
  let forceX := (target.x - springPoint.x) * hardness
  let forceY := (target.y - springPoint.y) * hardness
  let vx1 := springPoint.vx + forceX
  let vy1 := springPoint.vy + forceY
  let vx2 := vx1 * damping
  let vy2 := vy1 * damping
  { x := springPoint.x + vx2
    y := springPoint.y + vy2
    vx := vx2
    vy := vy2 }

/-- src/SpringyBlueSchlemerVisualizer.js `drawSpringyLine`, inner
control-point update (lines 144–168): the same integrator with
`effectiveSpringStrength = springStrength * elasticity` and
`effectiveDamping = damping + (1 - elasticity) * 0.03`. -/
def springyBlueControlStep (cp : SpringPoint) (ideal : Target2)
    (springStrength damping elasticity : ℚ) : SpringPoint :=
  let effectiveSpringStrength := springStrength * elasticity
  let effectiveDamping := damping + (1 - elasticity) * (3 / 100)
  let forceX := (ideal.x - cp.x) * effectiveSpringStrength
  let forceY := (ideal.y - cp.y) * effectiveSpringStrength
  let vx1 := cp.vx + forceX
  let vy1 := cp.vy + forceY
  let vx2 := vx1 * effectiveDamping
  let vy2 := vy1 * effectiveDamping
  { x := cp.x + vx2
    y := cp.y + vy2
    vx := vx2
    vy := vy2 }

/-- One smoothed keypoint of src/sketch.js `smoothPoses`: x/y blended as
`prev * (1 - factor) + new * factor`, confidence and name taken from the
new keypoint. -/
def smoothKeypoint (factor : ℚ) (newKp prevKp : Keypoint) : Keypoint :=
  { x := prevKp.x * (1 - factor) + newKp.x * factor
    y := prevKp.y * (1 - factor) + newKp.y * factor
    confidence := newKp.confidence
    name := newKp.name }

/-- The inner keypoint loop of `smoothPoses` for one pose pair.  The
source iterates `j` over `newPose.keypoints` and reads
`prevPose.keypoints[j]`; poses always carry the same fixed number of
keypoints (17), so the pairwise zip is exactly that loop. -/
def smoothPose (newPose prevPose : Pose) (factor : ℚ) : Pose :=
  { keypoints := List.zipWith (smoothKeypoint factor) newPose.keypoints prevPose.keypoints }

/-- The pose loop of `smoothPoses`: pose `i` is blended with
`previousPoses[i]` when that entry exists, and passes through unchanged
when `previousPoses` is shorter. -/
def smoothPosesAux (factor : ℚ) : List Pose → List Pose → List Pose
  | [], _ => []
  | newPose :: rest, [] => newPose :: smoothPosesAux factor rest []
  | newPose :: rest, prevPose :: prest =>
      smoothPose newPose prevPose factor :: smoothPosesAux factor rest prest

/-- src/sketch.js `smoothPoses(newPoses, factor)` (identical copy in
src/SpringSplineVisualizer.js), with the module-level `previousPoses`
passed explicitly: returns `newPoses` unchanged when the history is empty,
else blends pose-by-pose. -/
def smoothPoses (newPoses previousPoses : List Pose) (factor : ℚ) : List Pose :=
  if previousPoses.length = 0 then newPoses
  else smoothPosesAux factor newPoses previousPoses

/-- N successive smoothing steps against a constant target pose list, each
step feeding its output back as the previous poses — the feedback loop of
src/sketch.js `gotPoses` with a constant detection result. -/
def smoothIterate (targetPoses : List Pose) (factor : ℚ) (n : ℕ)
    (init : List Pose) : List Pose :=
  (fun prev => smoothPoses targetPoses prev factor)^[n] init

/-- src/sketch.js `isPointInPolygon(point, polygon)` (identical copy in
src/SpringSplineVisualizer.js): even-odd ray casting.  The source loop
runs `i` over all vertex indices with `j` the previous index (starting at
`length - 1`); the `getD` accesses below are always in bounds because `i`
ranges over `List.range polygon.length`. -/
def isPointInPolygon (point : Keypoint) (polygon : List MaskPoint) : Bool :=
  let x := point.x
  let y := point.y
  (List.range polygon.length).foldl
    (fun inside i =>
      let j := if i = 0 then polygon.length - 1 else i - 1
      let vi := polygon.getD i ⟨0, 0⟩
      let vj := polygon.getD j ⟨0, 0⟩
      let xi := vi.x
      let yi := vi.y
      let xj := vj.x
      let yj := vj.y
      let intersect :=
        (decide (yi > y) != decide (yj > y))
          && decide (x < (xj - xi) * (y - yi) / (yj - yi) + xi)
      if intersect then !inside else inside)
    false

/-- The inner count of src/sketch.js `filterPosesByMask`: keypoints with
confidence above 0.1 that lie inside the mask polygon. -/
def validKeypointCount (maskPoints : List MaskPoint) (pose : Pose) : ℕ :=
  pose.keypoints.countP
    (fun keypoint =>
      decide (keypoint.confidence > 1 / 10) && isPointInPolygon keypoint maskPoints)

/-- The survival test of `filterPosesByMask`:
`validKeypoints >= pose.keypoints.length / 4` (JavaScript float division,
taken against all keypoints of the pose). -/
def poseSurvivesMask (maskPoints : List MaskPoint) (pose : Pose) : Bool :=
  decide ((pose.keypoints.length : ℚ) / 4 ≤ (validKeypointCount maskPoints pose : ℚ))

/-- src/sketch.js `filterPosesByMask(poses)` with the module-level
`maskEnabled` / `maskPoints` passed explicitly: returns `poses` unchanged
when the mask is disabled or has fewer than 3 points, else keeps exactly
the poses passing the quarter threshold, in order. -/
def filterPosesByMask (maskEnabled : Bool) (maskPoints : List MaskPoint)
    (poses : List Pose) : List Pose :=
  if !maskEnabled || decide (maskPoints.length < 3) then poses
  else poses.filter (poseSurvivesMask maskPoints)

/-- One rendered stick segment `{startX, startY, endX, endY}` captured in a
trail snapshot (src/SchlemerVisualizer.js).  Trail coordinates stay in ℚ:
the snapshots only store already-computed numbers. -/
structure TrailStick where
  startX : ℚ
  startY : ℚ
  endX : ℚ
  endY : ℚ
deriving DecidableEq, Repr

/-- A trail snapshot `{age, sticks}` (src/SchlemerVisualizer.js
`captureTrailSnapshot` creates it with `age = 0`). -/
structure TrailSnapshot where
  age : ℕ
  sticks : List TrailStick
deriving DecidableEq, Repr

/-- The aging/eviction pass of src/SchlemerVisualizer.js
`drawSchlemerTrail` (lines 206–213): every stored snapshot's age is
incremented, and a snapshot is removed exactly when its new age exceeds
`trailMaxFrames`.  The source iterates backwards and splices; survivors
keep their relative order, which this forward recursion reproduces. -/
def tickTrailHistory (trailMaxFrames : ℕ) : List TrailSnapshot → List TrailSnapshot
  | [] => []
  | trailItem :: rest =>
      let aged : TrailSnapshot := { trailItem with age := trailItem.age + 1 }
      if trailMaxFrames < aged.age then tickTrailHistory trailMaxFrames rest
      else aged :: tickTrailHistory trailMaxFrames rest

/-- The fade of a surviving snapshot
(`fadeFactor = 1 - trailItem.age / this.trailMaxFrames`, line 215). -/
def fadeFactor (trailMaxFrames : ℕ) (trailItem : TrailSnapshot) : ℚ :=
  1 - (trailItem.age : ℚ) / (trailMaxFrames : ℚ)

/-- What one aging pass renders: every surviving snapshot paired with its
fade factor (the source then draws each stick with opacity
`fadeFactor * 255` and stroke weight `fadeFactor * 6`). -/
def renderedTrail (trailMaxFrames : ℕ) (history : List TrailSnapshot) :
    List (TrailSnapshot × ℚ) :=
  (tickTrailHistory trailMaxFrames history).map
    (fun trailItem => (trailItem, fadeFactor trailMaxFrames trailItem))

/-- One entry of the stick connection table
(src/SchlemerVisualizer.js `configureSchlemerConnections`). -/
structure SchlemerConnection where
  lower : ℕ
  upper : ℕ
  centered : Bool
  lengthRatio : ℚ
deriving DecidableEq, Repr

/-- A stick segment in source coordinates, before the scale/offset
transform applied at draw time.  Over ℝ because the geometry divides by
`Math.sqrt` of the squared direction length. -/
structure StickSegment where
  startX : ℝ
  startY : ℝ
  endX : ℝ
  endY : ℝ

/-- The per-connection geometry of src/SchlemerVisualizer.js
`drawSchlemerSticks` (identical in `captureTrailSnapshot`): `none` when a
keypoint index is absent, when either confidence is at most 0.1, or when
the two keypoints coincide (`dirLength > 0` fails); otherwise the emitted
segment.  `continue` in the source is `none` here. -/
noncomputable def computeStickSegment (schlemerLineLength : ℚ)
    (conn : SchlemerConnection) (pose : Pose) : Option StickSegment :=
  match pose.keypoints.get? conn.lower, pose.keypoints.get? conn.upper with
  | some point1, some point2 =>
    let actualLineLength : ℝ := (schlemerLineLength : ℝ) * (conn.lengthRatio : ℝ)
    if point1.confidence > 1 / 10 ∧ point2.confidence > 1 / 10 then
      if conn.centered then
        let centerX : ℝ := ((point1.x : ℝ) + (point2.x : ℝ)) / 2
        let centerY : ℝ := ((point1.y : ℝ) + (point2.y : ℝ)) / 2
        let dirX : ℝ := (point2.x : ℝ) - (point1.x : ℝ)
        let dirY : ℝ := (point2.y : ℝ) - (point1.y : ℝ)
        let dirLength : ℝ := Real.sqrt (dirX * dirX + dirY * dirY)
        if 0 < dirLength then
          let ux := dirX / dirLength
          let uy := dirY / dirLength
          let halfLength := actualLineLength / 2
          some { startX := centerX - ux * halfLength
                 startY := centerY - uy * halfLength
                 endX := centerX + ux * halfLength
                 endY := centerY + uy * halfLength }
        else none
      else
        let dirX : ℝ := (point2.x : ℝ) - (point1.x : ℝ)
        let dirY : ℝ := (point2.y : ℝ) - (point1.y : ℝ)
        let dirLength : ℝ := Real.sqrt (dirX * dirX + dirY * dirY)
        if 0 < dirLength then
          let ux := dirX / dirLength
          let uy := dirY / dirLength
          some { startX := (point1.x : ℝ)
                 startY := (point1.y : ℝ)
                 endX := (point1.x : ℝ) + ux * actualLineLength
                 endY := (point1.y : ℝ) + uy * actualLineLength }
        else none
    else none
  | _, _ => none

/-- src/SchlemerVisualizer.js `drawSchlemerSticks`: nothing when
uncalibrated (`schlemerLineLength === 0`), else all segments in pose order
then connection-table order. -/
noncomputable def drawSchlemerSticksSegments (schlemerLineLength : ℚ)
    (connections : List SchlemerConnection) (poses : List Pose) :
    List StickSegment :=
  if schlemerLineLength = 0 then []
  else poses.flatMap
    (fun pose => connections.filterMap
      (fun conn => computeStickSegment schlemerLineLength conn pose))

/-- The pose-related module state of src/sketch.js touched by `gotPoses`:
the published (filtered) list and the smoothing history. -/
structure PoseState where
  poses : List Pose
  previousPoses : List Pose
deriving Repr

/-- The deep copy `JSON.parse(JSON.stringify(kp))` performs on one
keypoint: a structural rebuild of every field. -/
def deepCopyKeypoint (kp : Keypoint) : Keypoint :=
  { x := kp.x, y := kp.y, confidence := kp.confidence, name := kp.name }

/-- Structural deep copy of one pose. -/
def deepCopyPose (pose : Pose) : Pose :=
  { keypoints := pose.keypoints.map deepCopyKeypoint }

/-- `JSON.parse(JSON.stringify(smoothedResults))` in `gotPoses`: a
structural deep copy of the whole pose list. -/
def deepCopyPoses (poses : List Pose) : List Pose :=
  poses.map deepCopyPose

/-- src/sketch.js `gotPoses(results)` (pose-state part; the conditional
call to `calculateSchlemerLineLength` only writes the calibration scalar,
never `poses` or `previousPoses`): smooth, filter, publish the filtered
list, and retain a deep copy of the unfiltered smoothed list as the next
history. -/
def gotPoses (maskEnabled : Bool) (maskPoints : List MaskPoint)
    (smoothingFactor : ℚ) (st : PoseState) (results : List Pose) : PoseState :=
  let smoothedResults := smoothPoses results st.previousPoses smoothingFactor
  let filteredResults := filterPosesByMask maskEnabled maskPoints smoothedResults
  { poses := filteredResults
    previousPoses := deepCopyPoses smoothedResults }

/-- The trail-related instance state of a visualizer
(src/SchlemerVisualizer.js constructor fields). -/
structure ClearRedState where
  trailHistory : List TrailSnapshot
  trailFrameCounter : ℕ
  trailInterval : ℕ
  trailMaxFrames : ℕ
deriving Repr

/-- The state built by the src/ClearRedSchlemerVisualizer.js constructor:
the parent constructor's `this.showSchlemerTrail = false` lands on the
overriding no-op setter, and `trailHistory` is (re)set to the empty
list. -/
def mkClearRedSchlemerVisualizer : ClearRedState :=
  { trailHistory := []
    trailFrameCounter := 0
    trailInterval := 3
    trailMaxFrames := 60 }

/-- The overriding getter `get showSchlemerTrail()` of
src/ClearRedSchlemerVisualizer.js: always `false`, whatever the state. -/
def clearRedShowSchlemerTrail (_ : ClearRedState) : Bool :=
  false

/-- The externally reachable operations on a ClearRedSchlemerVisualizer
that could touch trail state: its overridden `draw` (renders sticks only),
the overridden no-op trail methods, assignment to `showSchlemerTrail`
(no-op setter), and the sketch.js keyboard trail toggle. -/
inductive ClearRedOp where
  | draw
  | drawSchlemerTrail
  | captureTrailSnapshot
  | updateTrailParameters (interval maxFrames : ℕ)
  | assignShowSchlemerTrail (value : Bool)
  | toggleTrailKey

/-- Effect of each operation on the trail state, from
src/ClearRedSchlemerVisualizer.js: `draw` never calls the trail methods;
`drawSchlemerTrail`, `captureTrailSnapshot` and `updateTrailParameters`
are overridden to do nothing; the setter ignores its value.  The
sketch.js keyboard handler assigns through the no-op setter, then reads
the getter (always `false`) and so clears `trailHistory` and resets the
counter. -/
def applyClearRedOp (st : ClearRedState) : ClearRedOp → ClearRedState
  | .draw => st
  | .drawSchlemerTrail => st
  | .captureTrailSnapshot => st
  | .updateTrailParameters _ _ => st
  | .assignShowSchlemerTrail _ => st
  | .toggleTrailKey =>
      if !(clearRedShowSchlemerTrail st) then
        { st with trailHistory := [], trailFrameCounter := 0 }
      else st

/-- Helper: `get?` on the pose loop of `smoothPoses` when both lists have
an entry at the index. -/
theorem smoothPosesAux_get (factor : ℚ) (newPoses : List Pose) :
    ∀ (prevPoses : List Pose) (i : ℕ) (np pp : Pose),
      newPoses.get? i = some np → prevPoses.get? i = some pp →
      (smoothPosesAux factor newPoses prevPoses).get? i
        = some (smoothPose np pp factor) := by
  induction newPoses with
  | nil =>
    intro prevPoses i np pp hn _
    simp at hn
  | cons head tail ih =>
    intro prevPoses i np pp hn hp
    cases prevPoses with
    | nil => simp at hp
    | cons phead ptail =>
      cases i with
      | zero =>
        simp only [List.get?_cons_zero, Option.some.injEq] at hn hp
        subst hn; subst hp
        simp [smoothPosesAux]
      | succ n =>
        simp only [List.get?_cons_succ] at hn hp
        simpa [smoothPosesAux] using ih ptail n np pp hn hp

/-- Helper: `get?` on a `zipWith` when both lists have an entry. -/
theorem zipWith_get_some {α β γ : Type} (f : α → β → γ) :
    ∀ (as : List α) (bs : List β) (j : ℕ) (a : α) (b : β),
      as.get? j = some a → bs.get? j = some b →
      (List.zipWith f as bs).get? j = some (f a b) := by
  intro as
  induction as with
  | nil => intro bs j a b ha _; simp at ha
  | cons ahead atail ih =>
    intro bs j a b ha hb
    cases bs with
    | nil => simp at hb
    | cons bhead btail =>
      cases j with
      | zero =>
        simp only [List.get?_cons_zero, Option.some.injEq] at ha hb
        subst ha; subst hb
        simp
      | succ n =>
        simp only [List.get?_cons_succ] at ha hb
        simpa using ih btail n a b ha hb

/-- C1: one integration step of the spring solver first adds the force
(target minus position) times hardness to the velocity, then multiplies
the combined velocity by the damping factor, and finally adds the damped
velocity to the position: v' = (v + (target - p) * hardness) * damping and
p' = p + v', independently in x and y.  The control-point update of
`drawSpringyLine` is the same integrator with the effective hardness
`springStrength * elasticity` and effective damping
`damping + (1 - elasticity) * 0.03`. -/
theorem applySpringForce_step (sp : SpringPoint) (t : Target2)
    (hardness damping springStrength elasticity : ℚ) :
    (applySpringForce sp t hardness damping).vx
        = (sp.vx + (t.x - sp.x) * hardness) * damping
    ∧ (applySpringForce sp t hardness damping).vy
        = (sp.vy + (t.y - sp.y) * hardness) * damping
    ∧ (applySpringForce sp t hardness damping).x
        = sp.x + (sp.vx + (t.x - sp.x) * hardness) * damping
    ∧ (applySpringForce sp t hardness damping).y
        = sp.y + (sp.vy + (t.y - sp.y) * hardness) * damping
    ∧ springyBlueControlStep sp t springStrength damping elasticity
        = applySpringForce sp t (springStrength * elasticity)
            (damping + (1 - elasticity) * (3 / 100)) :=
  ⟨rfl, rfl, rfl, rfl, rfl⟩

/-- C5: cold-start identity — smoothing any pose list against an empty
previous-pose list returns the new list unchanged, for every factor. -/
theorem smoothPoses_cold_start (poses : List Pose) (factor : ℚ) :
    smoothPoses poses [] factor = poses :=
  rfl

/-- Helper: `get?` of `smoothPoses` at an index present in both the new
and the previous list. -/
theorem smoothPoses_get (newPoses prevPoses : List Pose) (factor : ℚ)
    (i : ℕ) (np pp : Pose)
    (hn : newPoses.get? i = some np) (hp : prevPoses.get? i = some pp) :
    (smoothPoses newPoses prevPoses factor).get? i
      = some (smoothPose np pp factor) := by
  have hne : prevPoses.length ≠ 0 := by
    intro hlen
    rw [List.length_eq_zero] at hlen
    subst hlen
    simp at hp
  unfold smoothPoses
  rw [if_neg hne]
  exact smoothPosesAux_get factor newPoses prevPoses i np pp hn hp

/-- C4: for every pose index present in both lists, the smoothed keypoint
at each position blends x and y as prev * (1 - factor) + new * factor and
takes confidence and name unchanged from the new keypoint; factor = 0
reproduces the previous position exactly and factor = 1 reproduces the new
keypoint exactly. -/
theorem smoothPoses_blend (newPoses prevPoses : List Pose) (factor : ℚ)
    (i : ℕ) (np pp : Pose)
    (hn : newPoses.get? i = some np) (hp : prevPoses.get? i = some pp) :
    (smoothPoses newPoses prevPoses factor).get? i
        = some (smoothPose np pp factor)
    ∧ ∀ (j : ℕ) (nk pk : Keypoint),
        np.keypoints.get? j = some nk → pp.keypoints.get? j = some pk →
        (smoothPose np pp factor).keypoints.get? j
            = some { x := pk.x * (1 - factor) + nk.x * factor
                     y := pk.y * (1 - factor) + nk.y * factor
                     confidence := nk.confidence
                     name := nk.name }
        ∧ (factor = 0 → smoothKeypoint factor nk pk
              = { x := pk.x, y := pk.y
                  confidence := nk.confidence, name := nk.name })
        ∧ (factor = 1 → smoothKeypoint factor nk pk = nk) := by
  constructor
  · exact smoothPoses_get newPoses prevPoses factor i np pp hn hp
  · intro j nk pk hj hpj
    refine ⟨?_, ?_, ?_⟩
    · unfold smoothPose
      exact zipWith_get_some (smoothKeypoint factor) np.keypoints pp.keypoints j nk pk hj hpj
    · intro h0
      subst h0
      simp [smoothKeypoint]
    · intro h1
      subst h1
      simp [smoothKeypoint]

/-- C7: the region filter is idempotent — with the mask enabled, applying
`filterPosesByMask` to its own output (same polygon) yields that output
unchanged. -/
theorem filterPosesByMask_idempotent (maskPoints : List MaskPoint)
    (poses : List Pose) :
    filterPosesByMask true maskPoints (filterPosesByMask true maskPoints poses)
      = filterPosesByMask true maskPoints poses := by
  unfold filterPosesByMask
  by_cases h : maskPoints.length < 3
  · simp [h]
  · simp [h, List.filter_filter]

/-- Helper: the structural deep copy (the model of
`JSON.parse(JSON.stringify(...))`) is the identity on pose lists. -/
theorem deepCopyPoses_eq_self (poses : List Pose) :
    deepCopyPoses poses = poses := by
  unfold deepCopyPoses deepCopyPose deepCopyKeypoint
  simp

/-- C9: the smoothing history kept by `gotPoses` for the next cycle is the
deep copy of the full smoothed list taken before region filtering, so the
retained history does not depend on the detection-mask configuration at
all — only the published `poses` list is filtered. -/
theorem gotPoses_history_unfiltered (maskEnabled maskEnabled' : Bool)
    (maskPoints maskPoints' : List MaskPoint) (smoothingFactor : ℚ)
    (st : PoseState) (results : List Pose) :
    (gotPoses maskEnabled maskPoints smoothingFactor st results).previousPoses
        = smoothPoses results st.previousPoses smoothingFactor
    ∧ (gotPoses maskEnabled maskPoints smoothingFactor st results).previousPoses
        = (gotPoses maskEnabled' maskPoints' smoothingFactor st results).previousPoses
    ∧ (gotPoses maskEnabled maskPoints smoothingFactor st results).poses
        = filterPosesByMask maskEnabled maskPoints
            (smoothPoses results st.previousPoses smoothingFactor) := by
  refine ⟨?_, ?_, rfl⟩
  · show deepCopyPoses _ = _
    exact deepCopyPoses_eq_self _
  · rfl

/-- Helper: every ClearRedSchlemerVisualizer operation keeps the trail
history empty. -/
theorem applyClearRedOp_keeps_empty (st : ClearRedState)
    (h : st.trailHistory = []) (op : ClearRedOp) :
    (applyClearRedOp st op).trailHistory = [] := by
  cases op <;> simp [applyClearRedOp, clearRedShowSchlemerTrail, h]

/-- Helper: folding any operation sequence over a state with empty trail
history keeps the trail history empty. -/
theorem foldClearRedOps_keeps_empty :
    ∀ (ops : List ClearRedOp) (st : ClearRedState), st.trailHistory = [] →
      (ops.foldl applyClearRedOp st).trailHistory = [] := by
  intro ops
  induction ops with
  | nil => intro st h; simpa using h
  | cons op rest ih =>
    intro st h
    exact ih (applyClearRedOp st op) (applyClearRedOp_keeps_empty st h op)

/-- C10: for the no-trail variant, after any sequence of draw,
trail-capture, trail-parameter-update, trail-toggle and
`showSchlemerTrail` assignment operations starting from the constructor
state, the trail history is still empty and reading `showSchlemerTrail`
still returns false. -/
theorem clearRed_no_trail_invariant (ops : List ClearRedOp) :
    (ops.foldl applyClearRedOp mkClearRedSchlemerVisualizer).trailHistory = []
    ∧ clearRedShowSchlemerTrail
        (ops.foldl applyClearRedOp mkClearRedSchlemerVisualizer) = false :=
  ⟨foldClearRedOps_keeps_empty ops mkClearRedSchlemerVisualizer rfl, rfl⟩

/-- Helper: one smoothing step scales the per-coordinate signed error to
the target by (1 - factor). -/
theorem smoothKeypoint_error_step (factor : ℚ) (tk pk : Keypoint) :
    tk.x - (smoothKeypoint factor tk pk).x = (1 - factor) * (tk.x - pk.x)
    ∧ tk.y - (smoothKeypoint factor tk pk).y = (1 - factor) * (tk.y - pk.y) := by
  constructor <;> (simp only [smoothKeypoint]; ring)

/-- C6: holding the target keypoint constant across N smoothing steps
(each step feeding its output back as the previous poses), the distance
between the smoothed position and the target after N steps is the initial
distance times (1 - factor)^N, in each coordinate. -/
theorem smoothPoses_geometric_convergence (targetPoses init : List Pose)
    (factor : ℚ) (i j N : ℕ) (tp ip : Pose) (tk ik : Keypoint)
    (hf : factor ≤ 1)
    (hti : targetPoses.get? i = some tp)
    (htj : tp.keypoints.get? j = some tk)
    (hii : init.get? i = some ip)
    (hij : ip.keypoints.get? j = some ik) :
    ∃ (pN : Pose) (kN : Keypoint),
      (smoothIterate targetPoses factor N init).get? i = some pN
      ∧ pN.keypoints.get? j = some kN
      ∧ tk.x - kN.x = (1 - factor) ^ N * (tk.x - ik.x)
      ∧ tk.y - kN.y = (1 - factor) ^ N * (tk.y - ik.y)
      ∧ |tk.x - kN.x| = (1 - factor) ^ N * |tk.x - ik.x|
      ∧ |tk.y - kN.y| = (1 - factor) ^ N * |tk.y - ik.y| := by
  have h1f : (0 : ℚ) ≤ 1 - factor := by linarith
  have hpow : (0 : ℚ) ≤ (1 - factor) ^ N := pow_nonneg h1f N
  suffices h : ∃ (pN : Pose) (kN : Keypoint),
      (smoothIterate targetPoses factor N init).get? i = some pN
      ∧ pN.keypoints.get? j = some kN
      ∧ tk.x - kN.x = (1 - factor) ^ N * (tk.x - ik.x)
      ∧ tk.y - kN.y = (1 - factor) ^ N * (tk.y - ik.y) by
    obtain ⟨pN, kN, h1, h2, h3, h4⟩ := h
    refine ⟨pN, kN, h1, h2, h3, h4, ?_, ?_⟩
    · rw [h3, abs_mul, abs_of_nonneg hpow]
    · rw [h4, abs_mul, abs_of_nonneg hpow]
  clear hpow
  induction N with
  | zero =>
    refine ⟨ip, ik, ?_, hij, ?_, ?_⟩
    · simpa [smoothIterate] using hii
    · simp
    · simp
  | succ n ihn =>
    obtain ⟨pN, kN, h1, h2, h3, h4⟩ := ihn
    refine ⟨smoothPose tp pN factor, smoothKeypoint factor tk kN, ?_, ?_, ?_, ?_⟩
    · have hstep := smoothPoses_get targetPoses
        (smoothIterate targetPoses factor n init) factor i tp pN hti h1
      simpa [smoothIterate, Function.iterate_succ_apply'] using hstep
    · exact zipWith_get_some (smoothKeypoint factor) tp.keypoints pN.keypoints j tk kN htj h2
    · have := (smoothKeypoint_error_step factor tk kN).1
      rw [this, h3, pow_succ]
      ring
    · have := (smoothKeypoint_error_step factor tk kN).2
      rw [this, h4, pow_succ]
      ring

/-- Helper: the aging/eviction pass equals incrementing every age and then
keeping exactly the snapshots whose new age is at most `trailMaxFrames`. -/
theorem tickTrailHistory_eq_map_filter (trailMaxFrames : ℕ) :
    ∀ history : List TrailSnapshot,
      tickTrailHistory trailMaxFrames history
        = (history.map (fun s => { s with age := s.age + 1 })).filter
            (fun s => decide (s.age ≤ trailMaxFrames)) := by
  intro history
  induction history with
  | nil => rfl
  | cons s rest ih =>
    by_cases h : trailMaxFrames < s.age + 1
    · have hd : decide (s.age + 1 ≤ trailMaxFrames) = false := by
        simp only [decide_eq_false_iff_not]
        omega
      simp [tickTrailHistory, h, List.filter, hd, ih]
    · have hd : decide (s.age + 1 ≤ trailMaxFrames) = true := by
        simp only [decide_eq_true_eq]
        omega
      simp [tickTrailHistory, h, List.filter, hd, ih]

/-- Helper: ticking a single snapshot k times while it stays within the
age limit just advances its age by k. -/
theorem tickTrailHistory_iterate (trailMaxFrames : ℕ) (sticks : List TrailStick) :
    ∀ (k a : ℕ), a + k ≤ trailMaxFrames →
      (tickTrailHistory trailMaxFrames)^[k] [⟨a, sticks⟩]
        = [⟨a + k, sticks⟩] := by
  intro k
  induction k with
  | zero => intro a _; simp
  | succ n ih =>
    intro a hk
    rw [Function.iterate_succ_apply]
    have hstep : tickTrailHistory trailMaxFrames [⟨a, sticks⟩]
        = [⟨a + 1, sticks⟩] := by
      have hle : ¬ trailMaxFrames < a + 1 := by omega
      simp [tickTrailHistory, hle]
    rw [hstep]
    have hiter := ih (a + 1) (by omega)
    rw [hiter]
    simp only [List.cons.injEq, TrailSnapshot.mk.injEq]
    refine ⟨⟨by omega, trivial⟩, trivial⟩

/-- C3: each trail tick increments every stored snapshot's age by 1,
evicts exactly the snapshots whose age exceeds `trailMaxFrames`, and
renders every survivor with fade factor 1 - age / trailMaxFrames;
consequently a snapshot captured at age 0 is gone after trailMaxFrames + 1
ticks with no further captures, while after exactly trailMaxFrames ticks
it is still present with fade factor 0. -/
theorem trail_tick_age_evict_fade (trailMaxFrames : ℕ)
    (history : List TrailSnapshot) (sticks : List TrailStick)
    (hpos : 0 < trailMaxFrames) :
    tickTrailHistory trailMaxFrames history
        = (history.map (fun s => { s with age := s.age + 1 })).filter
            (fun s => decide (s.age ≤ trailMaxFrames))
    ∧ renderedTrail trailMaxFrames history
        = (tickTrailHistory trailMaxFrames history).map
            (fun s => (s, 1 - (s.age : ℚ) / (trailMaxFrames : ℚ)))
    ∧ (tickTrailHistory trailMaxFrames)^[trailMaxFrames + 1] [⟨0, sticks⟩] = []
    ∧ (tickTrailHistory trailMaxFrames)^[trailMaxFrames] [⟨0, sticks⟩]
        = [⟨trailMaxFrames, sticks⟩]
    ∧ fadeFactor trailMaxFrames ⟨trailMaxFrames, sticks⟩ = 0 := by
  have hiter : (tickTrailHistory trailMaxFrames)^[trailMaxFrames] [⟨0, sticks⟩]
      = [⟨trailMaxFrames, sticks⟩] := by
    have := tickTrailHistory_iterate trailMaxFrames sticks trailMaxFrames 0 (by omega)
    simpa using this
  refine ⟨tickTrailHistory_eq_map_filter trailMaxFrames history, rfl, ?_, hiter, ?_⟩
  · rw [Function.iterate_succ_apply', hiter]
    have h : trailMaxFrames < trailMaxFrames + 1 := by omega
    simp [tickTrailHistory, h]
  · have hne : (trailMaxFrames : ℚ) ≠ 0 := by
      exact_mod_cast Nat.pos_iff_ne_zero.mp hpos
    simp [fadeFactor, div_self hne]

/-- C2: with the mask enabled and a region of at least 3 points, a pose
survives `filterPosesByMask` if and only if the number of its keypoints
with confidence above 0.1 lying inside the polygon is at least the total
number of its keypoints divided by 4 (the threshold counts all keypoints
of the pose, not only the confident ones); consequently, for a 17-keypoint
pose, 5 confident inside keypoints survive (5 ≥ 17/4) while 4 do not. -/
theorem filterPosesByMask_quarter_threshold (maskPoints : List MaskPoint)
    (poses : List Pose) (h3 : 3 ≤ maskPoints.length) :
    (∀ pose : Pose,
      pose ∈ filterPosesByMask true maskPoints poses
        ↔ pose ∈ poses
          ∧ (pose.keypoints.length : ℚ) / 4
              ≤ (validKeypointCount maskPoints pose : ℚ))
    ∧ (∀ pose : Pose, pose.keypoints.length = 17 →
        validKeypointCount maskPoints pose = 5 →
        poseSurvivesMask maskPoints pose = true)
    ∧ (∀ pose : Pose, pose.keypoints.length = 17 →
        validKeypointCount maskPoints pose = 4 →
        poseSurvivesMask maskPoints pose = false) := by
  have hlt : ¬ maskPoints.length < 3 := by omega
  refine ⟨?_, ?_, ?_⟩
  · intro pose
    unfold filterPosesByMask
    simp [hlt, List.mem_filter, poseSurvivesMask]
  · intro pose hlen hcount
    unfold poseSurvivesMask
    rw [hlen, hcount]
    norm_num
  · intro pose hlen hcount
    unfold poseSurvivesMask
    rw [hlen, hcount]
    norm_num

/-- C8: a connection whose two keypoints coincide exactly (same x and y)
produces no stick segment, whatever the confidences (in particular at full
confidence); and whenever a segment is produced the direction length
(the only divisor in the geometry) is strictly positive, so every emitted
coordinate is a well-defined real number — the division by a zero-length
direction that would produce NaN in the source never happens. -/
theorem computeStickSegment_degenerate (schlemerLineLength : ℚ)
    (conn : SchlemerConnection) (pose : Pose) (point1 point2 : Keypoint)
    (h1 : pose.keypoints.get? conn.lower = some point1)
    (h2 : pose.keypoints.get? conn.upper = some point2)
    (hx : point1.x = point2.x) (hy : point1.y = point2.y) :
    computeStickSegment schlemerLineLength conn pose = none
    ∧ ∀ (len : ℚ) (c : SchlemerConnection) (q : Pose) (seg : StickSegment),
        computeStickSegment len c q = some seg →
        ∃ q1 q2 : Keypoint,
          q.keypoints.get? c.lower = some q1
          ∧ q.keypoints.get? c.upper = some q2
          ∧ 0 < Real.sqrt
              (((q2.x : ℝ) - (q1.x : ℝ)) * ((q2.x : ℝ) - (q1.x : ℝ))
                + ((q2.y : ℝ) - (q1.y : ℝ)) * ((q2.y : ℝ) - (q1.y : ℝ)))
          ∧ ¬(q1.x = q2.x ∧ q1.y = q2.y) := by
  constructor
  · have harg : ((point2.x : ℝ) - (point1.x : ℝ)) * ((point2.x : ℝ) - (point1.x : ℝ))
        + ((point2.y : ℝ) - (point1.y : ℝ)) * ((point2.y : ℝ) - (point1.y : ℝ)) = 0 := by
      rw [hx, hy]
      ring
    have h1g : pose.keypoints[conn.lower]? = some point1 := by
      rw [← List.get?_eq_getElem?]
      exact h1
    have h2g : pose.keypoints[conn.upper]? = some point2 := by
      rw [← List.get?_eq_getElem?]
      exact h2
    simp [computeStickSegment, h1g, h2g, harg]
  · intro len c q seg hsome
    rw [computeStickSegment.eq_def] at hsome
    cases hq1 : q.keypoints.get? c.lower with
    | none => rw [hq1] at hsome; simp at hsome
    | some q1 =>
      cases hq2 : q.keypoints.get? c.upper with
      | none => rw [hq1, hq2] at hsome; simp at hsome
      | some q2 =>
        rw [hq1, hq2] at hsome
        by_cases hpos : 0 <
            ((q2.x : ℝ) - (q1.x : ℝ)) * ((q2.x : ℝ) - (q1.x : ℝ))
              + ((q2.y : ℝ) - (q1.y : ℝ)) * ((q2.y : ℝ) - (q1.y : ℝ))
        · refine ⟨q1, q2, rfl, rfl, Real.sqrt_pos.mpr hpos, ?_⟩
          rintro ⟨hex, hey⟩
          rw [hex, hey] at hpos
          simp at hpos
        · exfalso
          simp [Real.sqrt_pos, hpos] at hsome

/-- Witness for C2 at a concrete square mask and concrete 17-keypoint
poses: 5 keypoints of confidence 1 at (5,5) inside the square make the
pose survive, 4 do not. -/
theorem filterPosesByMask_quarter_threshold_witness :
    3 ≤ ([⟨0, 0⟩, ⟨10, 0⟩, ⟨10, 10⟩, ⟨0, 10⟩] : List MaskPoint).length
    ∧ poseSurvivesMask [⟨0, 0⟩, ⟨10, 0⟩, ⟨10, 10⟩, ⟨0, 10⟩]
        ⟨[⟨5, 5, 1, "kp"⟩, ⟨5, 5, 1, "kp"⟩, ⟨5, 5, 1, "kp"⟩, ⟨5, 5, 1, "kp"⟩,
          ⟨5, 5, 1, "kp"⟩, ⟨5, 5, 0, "kp"⟩, ⟨5, 5, 0, "kp"⟩, ⟨5, 5, 0, "kp"⟩,
          ⟨5, 5, 0, "kp"⟩, ⟨5, 5, 0, "kp"⟩, ⟨5, 5, 0, "kp"⟩, ⟨5, 5, 0, "kp"⟩,
          ⟨5, 5, 0, "kp"⟩, ⟨5, 5, 0, "kp"⟩, ⟨5, 5, 0, "kp"⟩, ⟨5, 5, 0, "kp"⟩,
          ⟨5, 5, 0, "kp"⟩]⟩ = true
    ∧ poseSurvivesMask [⟨0, 0⟩, ⟨10, 0⟩, ⟨10, 10⟩, ⟨0, 10⟩]
        ⟨[⟨5, 5, 1, "kp"⟩, ⟨5, 5, 1, "kp"⟩, ⟨5, 5, 1, "kp"⟩, ⟨5, 5, 1, "kp"⟩,
          ⟨5, 5, 0, "kp"⟩, ⟨5, 5, 0, "kp"⟩, ⟨5, 5, 0, "kp"⟩, ⟨5, 5, 0, "kp"⟩,
          ⟨5, 5, 0, "kp"⟩, ⟨5, 5, 0, "kp"⟩, ⟨5, 5, 0, "kp"⟩, ⟨5, 5, 0, "kp"⟩,
          ⟨5, 5, 0, "kp"⟩, ⟨5, 5, 0, "kp"⟩, ⟨5, 5, 0, "kp"⟩, ⟨5, 5, 0, "kp"⟩,
          ⟨5, 5, 0, "kp"⟩]⟩ = false := by
  have hin : isPointInPolygon { x := 5, y := 5, confidence := 1, name := "kp" }
      ([⟨0, 0⟩, ⟨10, 0⟩, ⟨10, 10⟩, ⟨0, 10⟩] : List MaskPoint) = true := by
    rw [isPointInPolygon]
    norm_num [show List.range 4 = [0, 1, 2, 3] from rfl, List.foldl, List.getD]
  have hc5 : validKeypointCount [⟨0, 0⟩, ⟨10, 0⟩, ⟨10, 10⟩, ⟨0, 10⟩]
      ⟨[⟨5, 5, 1, "kp"⟩, ⟨5, 5, 1, "kp"⟩, ⟨5, 5, 1, "kp"⟩, ⟨5, 5, 1, "kp"⟩,
        ⟨5, 5, 1, "kp"⟩, ⟨5, 5, 0, "kp"⟩, ⟨5, 5, 0, "kp"⟩, ⟨5, 5, 0, "kp"⟩,
        ⟨5, 5, 0, "kp"⟩, ⟨5, 5, 0, "kp"⟩, ⟨5, 5, 0, "kp"⟩, ⟨5, 5, 0, "kp"⟩,
        ⟨5, 5, 0, "kp"⟩, ⟨5, 5, 0, "kp"⟩, ⟨5, 5, 0, "kp"⟩, ⟨5, 5, 0, "kp"⟩,
        ⟨5, 5, 0, "kp"⟩]⟩ = 5 := by
    norm_num [validKeypointCount, List.countP_cons, hin]
  have hc4 : validKeypointCount [⟨0, 0⟩, ⟨10, 0⟩, ⟨10, 10⟩, ⟨0, 10⟩]
      ⟨[⟨5, 5, 1, "kp"⟩, ⟨5, 5, 1, "kp"⟩, ⟨5, 5, 1, "kp"⟩, ⟨5, 5, 1, "kp"⟩,
        ⟨5, 5, 0, "kp"⟩, ⟨5, 5, 0, "kp"⟩, ⟨5, 5, 0, "kp"⟩, ⟨5, 5, 0, "kp"⟩,
        ⟨5, 5, 0, "kp"⟩, ⟨5, 5, 0, "kp"⟩, ⟨5, 5, 0, "kp"⟩, ⟨5, 5, 0, "kp"⟩,
        ⟨5, 5, 0, "kp"⟩, ⟨5, 5, 0, "kp"⟩, ⟨5, 5, 0, "kp"⟩, ⟨5, 5, 0, "kp"⟩,
        ⟨5, 5, 0, "kp"⟩]⟩ = 4 := by
    norm_num [validKeypointCount, List.countP_cons, hin]
  refine ⟨by norm_num, ?_, ?_⟩
  · exact (filterPosesByMask_quarter_threshold
      [⟨0, 0⟩, ⟨10, 0⟩, ⟨10, 10⟩, ⟨0, 10⟩] [] (by norm_num)).2.1 _ rfl hc5
  · exact (filterPosesByMask_quarter_threshold
      [⟨0, 0⟩, ⟨10, 0⟩, ⟨10, 10⟩, ⟨0, 10⟩] [] (by norm_num)).2.2 _ rfl hc4

/-- Witness for C3 at maxAge = 2: a snapshot captured at age 0 is evicted
after 3 ticks, still present with fade factor 0 after exactly 2 ticks. -/
theorem trail_tick_age_evict_fade_witness :
    0 < 2
    ∧ (tickTrailHistory 2)^[2 + 1] [⟨0, []⟩] = []
    ∧ (tickTrailHistory 2)^[2] [⟨0, []⟩] = [⟨2, []⟩]
    ∧ fadeFactor 2 ⟨2, []⟩ = 0 :=
  ⟨by decide,
   (trail_tick_age_evict_fade 2 [] [] (by decide)).2.2.1,
   (trail_tick_age_evict_fade 2 [] [] (by decide)).2.2.2.1,
   (trail_tick_age_evict_fade 2 [] [] (by decide)).2.2.2.2⟩

/-- Witness for C4 at a concrete one-pose, one-keypoint input with
factor 1/2. -/
theorem smoothPoses_blend_witness :
    ([(⟨[⟨10, 20, 9 / 10, "nose"⟩]⟩ : Pose)].get? 0
        = some ⟨[⟨10, 20, 9 / 10, "nose"⟩]⟩)
    ∧ ([(⟨[⟨0, 2, 1 / 2, "nose"⟩]⟩ : Pose)].get? 0
        = some ⟨[⟨0, 2, 1 / 2, "nose"⟩]⟩)
    ∧ (smoothPoses [⟨[⟨10, 20, 9 / 10, "nose"⟩]⟩] [⟨[⟨0, 2, 1 / 2, "nose"⟩]⟩]
        (1 / 2)).get? 0
        = some (smoothPose ⟨[⟨10, 20, 9 / 10, "nose"⟩]⟩ ⟨[⟨0, 2, 1 / 2, "nose"⟩]⟩
            (1 / 2)) :=
  ⟨rfl, rfl,
   (smoothPoses_blend [⟨[⟨10, 20, 9 / 10, "nose"⟩]⟩] [⟨[⟨0, 2, 1 / 2, "nose"⟩]⟩]
      (1 / 2) 0 ⟨[⟨10, 20, 9 / 10, "nose"⟩]⟩ ⟨[⟨0, 2, 1 / 2, "nose"⟩]⟩ rfl rfl).1⟩

/-- Witness for C6: three smoothing steps with factor 1/2 toward the
constant target (10, 20) starting from (2, 4). -/
theorem smoothPoses_geometric_convergence_witness :
    ((1 : ℚ) / 2 ≤ 1)
    ∧ ∃ (pN : Pose) (kN : Keypoint),
        (smoothIterate [⟨[⟨10, 20, 1, "nose"⟩]⟩] (1 / 2) 3
            [⟨[⟨2, 4, 1, "nose"⟩]⟩]).get? 0 = some pN
        ∧ pN.keypoints.get? 0 = some kN
        ∧ (10 : ℚ) - kN.x = (1 - 1 / 2) ^ 3 * ((10 : ℚ) - 2)
        ∧ (20 : ℚ) - kN.y = (1 - 1 / 2) ^ 3 * ((20 : ℚ) - 4)
        ∧ |(10 : ℚ) - kN.x| = (1 - 1 / 2) ^ 3 * |(10 : ℚ) - 2|
        ∧ |(20 : ℚ) - kN.y| = (1 - 1 / 2) ^ 3 * |(20 : ℚ) - 4| :=
  ⟨by norm_num,
   smoothPoses_geometric_convergence [⟨[⟨10, 20, 1, "nose"⟩]⟩]
     [⟨[⟨2, 4, 1, "nose"⟩]⟩] (1 / 2) 0 0 3
     ⟨[⟨10, 20, 1, "nose"⟩]⟩ ⟨[⟨2, 4, 1, "nose"⟩]⟩
     ⟨10, 20, 1, "nose"⟩ ⟨2, 4, 1, "nose"⟩
     (by norm_num) rfl rfl rfl rfl⟩

/-- Witness for C8: two coincident keypoints at (3, 4) with full
confidence on an uncentered connection emit no segment. -/
theorem computeStickSegment_degenerate_witness :
    ((⟨3, 4, 1, "a"⟩ : Keypoint).x = (⟨3, 4, 1, "b"⟩ : Keypoint).x)
    ∧ ((⟨3, 4, 1, "a"⟩ : Keypoint).y = (⟨3, 4, 1, "b"⟩ : Keypoint).y)
    ∧ computeStickSegment 100 ⟨0, 1, false, 3 / 4⟩
        ⟨[⟨3, 4, 1, "a"⟩, ⟨3, 4, 1, "b"⟩]⟩ = none :=
  ⟨rfl, rfl,
   (computeStickSegment_degenerate 100 ⟨0, 1, false, 3 / 4⟩
      ⟨[⟨3, 4, 1, "a"⟩, ⟨3, 4, 1, "b"⟩]⟩ ⟨3, 4, 1, "a"⟩ ⟨3, 4, 1, "b"⟩
      rfl rfl rfl rfl).1⟩
